import Mathlib

/-!
Verification development for the tap-autopilot extractor
(`src/tap_autopilot/__init__.py`).

The embedding models, from the source:
  * the Pagination Engine `gen_request` as a fuel-indexed run over an
    abstract page fetcher (the fetcher is indexed by fetch count so the
    remote data may differ between fetches);
  * the Incremental Sync Controller `sync_contacts` as a fold over the
    record stream, tracking the emitted records and `max_updated_at`
    (timestamps are modelled as integers, as only their ordering matters);
  * the retry wrapper on `request` (the `backoff` decorator with
    `max_tries=5`, `giveup=client_error`, `factor=2`) and the
    `client_error` classifier;
  * the Stream Dispatcher `get_streams_to_sync` and the per-stream
    `sync` dispatch;
  * the record transform `transform_contact` over a JSON-like value type.
-/

namespace TapAutopilot

/-- `PER_PAGE` from the source: the fixed API page size. -/
def PER_PAGE : Nat := 100

/-! ## Pagination Engine (`gen_request`) -/

/-- One API page: the record array found under the source's accessor key,
and the optional top-level continuation token (`"bookmark" in data`). -/
structure Page (α : Type) where
  records : List α
  bookmark : Option String
deriving DecidableEq

/-- Result of running the `gen_request` loop: the params used by each
fetch in order, the records yielded, and whether the loop reached its
`break` (as opposed to running out of fuel). -/
structure RunResult (α : Type) where
  fetchParams : List (Option String)
  yielded : List α
  finished : Bool
deriving DecidableEq

/-- The `gen_request` loop, translated from the source. `params` is the
params dict, which in the source only ever holds the `"bookmark"` key
(every call site passes `params=None`), so it is modelled as
`Option String`. Each iteration fetches a page with the current params
(the fetcher also receives the fetch index, so remote data may change
between fetches); for a contacts-like source the bookmark parameter is
set from the page's token or cleared; every record of the page is
yielded; and the loop breaks when the page holds fewer than `PER_PAGE`
records. `fuel` bounds the number of iterations modelled; `finished`
records whether the `break` was reached within the fuel. -/
def genRequestRun {α : Type} (isContact : Bool) (fetch : Nat → Option String → Page α) :
    Nat → Nat → Option String → RunResult α
  | 0, _, _ => ⟨[], [], false⟩
  | fuel+1, i, params =>
    let data := fetch i params
    let nextParams := if isContact then data.bookmark else params
    if data.records.length < PER_PAGE then
      ⟨[params], data.records, true⟩
    else
      let rest := genRequestRun isContact fetch fuel (i+1) nextParams
      ⟨params :: rest.fetchParams, data.records ++ rest.yielded, rest.finished⟩

/-- The generator terminates (reaches its `break`) for some fuel bound. -/
def GenTerminates {α : Type} (isContact : Bool) (fetch : Nat → Option String → Page α)
    (init : Option String) : Prop :=
  ∃ fuel, (genRequestRun isContact fetch fuel 0 init).finished = true

/-- Concatenation of the per-index page record lists `recsOf i`,
`recsOf (i+1)`, ..., `recsOf (i+n)`. -/
def pagesConcat {α : Type} (recsOf : Nat → List α) : Nat → Nat → List α
  | i, 0 => recsOf i
  | i, n+1 => recsOf i ++ pagesConcat recsOf (i+1) n

/-! ## Incremental Sync Controller (`sync_contacts`) -/

/-- A contact record as seen by `sync_contacts`: an opaque payload plus
the optional `updated_at` timestamp (an integer instant; the source
parses the field into a zoned datetime and only compares and maximises
it, and a missing field leaves the loop variable `updated_at = None`). -/
structure ContactRec where
  payload : Nat
  updated_at : Option Int
deriving DecidableEq

/-- One iteration of the `sync_contacts` record loop, translated from
the source: emit the row when `not updated_at or updated_at >= start`
(the source emits `transform_contact(row)`; the model records which rows
are emitted), and update `max_updated_at` when
`updated_at and updated_at > max_updated_at`. -/
def syncStep (start : Int) (acc : List ContactRec × Int) (row : ContactRec) :
    List ContactRec × Int :=
  match row.updated_at with
  | none => (acc.1 ++ [row], acc.2)
  | some t =>
      ((if start ≤ t then acc.1 ++ [row] else acc.1),
       (if acc.2 < t then t else acc.2))

/-- The `sync_contacts` record loop: starting from no emissions and
`max_updated_at = start`, fold `syncStep` over the record stream.
Returns the emitted rows and the final `max_updated_at` (which the
source persists as the new `updated_at` bookmark). -/
def syncContacts (start : Int) (rows : List ContactRec) : List ContactRec × Int :=
  rows.foldl (syncStep start) ([], start)

/-- The slice of tap STATE the contacts sync reads and writes: the
`bookmarks.contacts.updated_at` entry and the `currently_syncing`
marker. -/
structure TapState where
  contactsUpdatedAt : Option Int
  currentlySyncing : Option String
deriving DecidableEq

/-- `get_start` from the source, for the contacts stream: the existing
bookmark, or the configured `start_date` when none exists. -/
def getStart (state : TapState) (startDate : Int) : Int :=
  match state.contactsUpdatedAt with
  | none => startDate
  | some b => b

/-- `sync_contacts` at the STATE level: compute `start` via `get_start`,
run the record loop, and persist the final `max_updated_at` with
`write_bookmark`. -/
def syncContactsState (state : TapState) (startDate : Int) (rows : List ContactRec) :
    TapState :=
  let start := getStart state startDate
  { state with contactsUpdatedAt := some (syncContacts start rows).2 }

/-- The per-stream `sync` dispatch from the source: `return_val` starts
as the incoming state; only the contacts branch reassigns it
(`sync_lists`, `sync_smart_segments` and `sync_smart_segment_contacts`
neither receive nor return STATE — they only emit records, which the
state model does not track). `contactRows` is the record stream the
contacts branch would consume. -/
def sync (state : TapState) (startDate : Int) (streamId : String)
    (contactRows : List ContactRec) : TapState :=
  if streamId = "contacts" then syncContactsState state startDate contactRows
  else if streamId = "lists" then state
  else if streamId = "smart_segments" then state
  else if streamId = "smart_segments_contacts" then state
  else state

/-! ## Stream Dispatcher (`get_streams_to_sync`) -/

/-- A catalog entry, carrying the part the dispatcher reads. -/
structure CatStream where
  tap_stream_id : String
deriving DecidableEq

/-- Python `str(current_stream)` as used in the error message of
`get_streams_to_sync`. -/
def csRepr : Option String → String
  | none => "None"
  | some s => s

/-- `get_streams_to_sync` from the source: `result` starts as the full
catalog; when the state's `currently_syncing` value is truthy (present
and not the empty string, matching Python's `if current_stream:`),
`result` becomes `dropwhile(lambda x: x.tap_stream_id != current_stream,
streams)`; an empty `result` raises
`Exception("Unknown stream ... in state")`. -/
def getStreamsToSync (streams : List CatStream) (currentStream : Option String) :
    Except String (List CatStream) :=
  let result :=
    match currentStream with
    | some s => if s == "" then streams
                else streams.dropWhile (fun x => !(x.tap_stream_id == s))
    | none => streams
  if result.isEmpty then
    Except.error ("Unknown stream " ++ csRepr currentStream ++ " in state")
  else
    Except.ok result

/-! ## HTTP Fetcher retry (`client_error` and the `backoff` wrapper) -/

/-- `client_error` from the source. A request exception either carries
no response (`exc.response is None`, modelled `none`) or a response
with a status code: `exc.response is not None and
exc.response.status_code != 408 and 400 <= exc.response.status_code < 500`. -/
def clientError : Option Nat → Bool
  | none => false
  | some code => decide (code ≠ 408) && (decide (400 ≤ code) && decide (code < 500))

/-- Modelled from the spec: the retry loop that the third-party
`backoff.on_exception(backoff.expo, RequestException, max_tries=5,
giveup=client_error, factor=2)` decorator wraps around `request` (the
decorator's semantics live in the external `backoff` library; only its
parameters are in the source). `attempt i` is the outcome of the
`i`-th try (`Except.error resp` is a request exception with optional
response status). The loop makes a try; on success it stops; on failure
it re-raises immediately when `giveup` (= `client_error`) holds or the
try budget is spent, and otherwise sleeps the next `expo` backoff value
`factor * 2 ^ i = 2 * 2 ^ i` (jitter elided) and retries. Returns the
final outcome, the number of tries made, and the backoff values slept. -/
def backoffRun {α : Type} (attempt : Nat → Except (Option Nat) α) :
    Nat → Nat → Except (Option Nat) α × Nat × List Nat
  | _, 0 => (Except.error none, 0, [])
  | i, triesLeft+1 =>
    match attempt i with
    | Except.ok a => (Except.ok a, 1, [])
    | Except.error e =>
      if clientError e || triesLeft == 0 then
        (Except.error e, 1, [])
      else
        let rest := backoffRun attempt (i+1) triesLeft
        (rest.1, rest.2.1 + 1, 2 * 2 ^ i :: rest.2.2)

/-- The retried `request`: up to `max_tries = 5` tries. -/
def request {α : Type} (attempt : Nat → Except (Option Nat) α) :
    Except (Option Nat) α × Nat × List Nat :=
  backoffRun attempt 0 5

/-! ## Record transform (`transform_contact`) -/

/-- A JSON-like value, enough to express a contact's properties. -/
inductive JVal where
  | bool : Bool → JVal
  | int : Int → JVal
  | str : String → JVal
  | obj : List (String × JVal) → JVal
  | arr : List JVal → JVal

/-- A contact as a JSON object: an ordered association list of
properties (Python dict keys are unique and insertion-ordered). -/
abbrev Contact := List (String × JVal)

/-- `boolean_props` from the source. -/
def boolean_props : List String :=
  ["anywhere_page_visits", "anywhere_form_submits", "anywhere_utm"]

/-- `timestamp_props` from the source. -/
def timestamp_props : List String :=
  ["mail_received", "mail_opened", "mail_clicked", "mail_bounced",
   "mail_complained", "mail_unsubscribed", "mail_hardbounced"]

/-- Python `prop in contact`. -/
def hasKey (c : Contact) (k : String) : Bool :=
  c.any (fun p => p.1 == k)

/-- Python `contact[prop] = v'` for the value `v' = f contact[prop]`:
replace the value stored at `k` in place, preserving key order. -/
def updateKey (c : Contact) (k : String) (f : JVal → JVal) : Contact :=
  c.map (fun p => if p.1 == k then (p.1, f p.2) else p)

/-- Python `contact[prop]` as a partial lookup. -/
def lookupKey (c : Contact) (k : String) : Option JVal :=
  (c.find? (fun p => p.1 == k)).map (fun p => p.2)

/-- The boolean-prop loop body of `transform_contact`: a sub-object
becomes the array of its rows as `("url", row key)` / `("value", row
value)` objects. -/
def boolFormat : JVal → JVal
  | JVal.obj rows =>
      JVal.arr (rows.map (fun r => JVal.obj [("url", JVal.str r.1), ("value", r.2)]))
  | v => v

/-- The timestamp-prop loop body of `transform_contact`: a sub-object
becomes the array of its rows as `("id", row key)` / `("timestamp",
parsed row value)` objects, where `parseMs` stands for
`_transform_datetime(..., UNIX_MILLISECONDS_INTEGER_DATETIME_PARSING)`
(an external `singer` helper, kept abstract as a parameter). -/
def tsFormat (parseMs : JVal → JVal) : JVal → JVal
  | JVal.obj rows =>
      JVal.arr (rows.map (fun r => JVal.obj [("id", JVal.str r.1), ("timestamp", parseMs r.2)]))
  | v => v

/-- One `for prop in props: if prop in contact: contact[prop] = ...`
loop of `transform_contact`. -/
def applyProps (props : List String) (fmt : JVal → JVal) (c : Contact) : Contact :=
  props.foldl (fun acc prop => if hasKey acc prop then updateKey acc prop fmt else acc) c

/-- `transform_contact` from the source: the boolean-prop loop followed
by the timestamp-prop loop. -/
def transform_contact (parseMs : JVal → JVal) (c : Contact) : Contact :=
  applyProps timestamp_props (tsFormat parseMs) (applyProps boolean_props boolFormat c)

/-! ## Concrete data for witnesses and counterexamples -/

/-- Record stream for the C1 witness: `updated_at` values
`[T0-1, T0, T0+5, T0+2]` with `T0 = 10`, per the spec's example. -/
def c1Rows : List ContactRec :=
  [⟨0, some 9⟩, ⟨1, some 10⟩, ⟨2, some 15⟩, ⟨3, some 12⟩]

/-- Per-fetch record lists for the C2 witness: one full page of 100
records, then a short page of 3. -/
def c2Recs : Nat → List Nat
  | 0 => List.range 100
  | _ => [100, 101, 102]

/-- Fetcher for the C2 witness: serves `c2Recs` and puts a continuation
token on every page — in particular the short final page carries one. -/
def c2Fetch : Nat → Option String → Page Nat :=
  fun i _ => ⟨c2Recs i, some "tok"⟩

/-- Fetcher for the C3 witness: a full first page carrying token `"b1"`,
then a short page with no token. -/
def c3Fetch : Nat → Option String → Page Nat :=
  fun i _ => if i = 0 then ⟨List.range 100, some "b1"⟩ else ⟨[5], none⟩

/-- A fetcher that answers every fetch with a full page of `PER_PAGE`
records and no continuation token. -/
def fullFetch : Nat → Option String → Page Nat :=
  fun _ _ => ⟨List.range PER_PAGE, none⟩

/-- A fetcher whose very first page is already short. -/
def shortFetch : Nat → Option String → Page Nat :=
  fun _ _ => ⟨[], none⟩

/-- The four-stream catalog of the source, in discovery order. -/
def c5Catalog : List CatStream :=
  [⟨"contacts"⟩, ⟨"lists"⟩, ⟨"smart_segments"⟩, ⟨"smart_segments_contacts"⟩]

/-- An attempt sequence that always fails with a 404 response. -/
def c6Attempt : Nat → Except (Option Nat) Unit :=
  fun _ => Except.error (some 404)

/-- The spec's boolean-map transform example contact. -/
def c9Contact : Contact :=
  [("anywhere_page_visits", JVal.obj [("http://x.com", JVal.bool true)])]

/-! ## Lemmas: the contacts record loop -/

theorem syncStep_max_eq (m t : Int) : (if m < t then t else m) = max m t := by
  rcases le_or_lt t m with h | h
  · rw [if_neg (not_lt.mpr h), max_eq_left h]
  · rw [if_pos h, max_eq_right h.le]

theorem syncContacts_emitted_aux (start : Int) (rows : List ContactRec)
    (acc : List ContactRec × Int) :
    (rows.foldl (syncStep start) acc).1 =
      acc.1 ++ rows.filter (fun r => r.updated_at.all (fun t => decide (start ≤ t))) := by
  induction rows generalizing acc with
  | nil => simp
  | cons r rs ih =>
    rw [List.foldl_cons, ih]
    cases h : r.updated_at with
    | none => simp [syncStep, h, List.filter_cons]
    | some t =>
      by_cases hst : start ≤ t
      · simp [syncStep, h, hst, List.filter_cons]
      · simp [syncStep, h, hst, List.filter_cons]

theorem syncContacts_max_aux (start : Int) (rows : List ContactRec)
    (acc : List ContactRec × Int) :
    (rows.foldl (syncStep start) acc).2 =
      (rows.filterMap (fun r => r.updated_at)).foldl max acc.2 := by
  induction rows generalizing acc with
  | nil => simp
  | cons r rs ih =>
    rw [List.foldl_cons, ih]
    cases h : r.updated_at with
    | none => simp [syncStep, h, List.filterMap_cons]
    | some t => simp [syncStep, h, List.filterMap_cons, syncStep_max_eq]

theorem le_foldl_max (l : List Int) : ∀ m : Int, m ≤ l.foldl max m := by
  induction l with
  | nil => intro m; simp
  | cons x xs ih => intro m; exact le_trans (le_max_left m x) (ih (max m x))

/-! ## Claims about the Incremental Sync Controller -/

/-- Claim C1: for the contacts incremental sync with watermark
`start = T0`, over a record stream whose records all carry `updated_at`,
exactly the records with `updated_at ≥ T0` are emitted, and the bookmark
persisted on exhaustion is the maximum `updated_at` observed over all
records (emitted and suppressed), seeded at `T0`. -/
theorem sync_contacts_incremental (start : Int) (rows : List ContactRec)
    (h : ∀ r ∈ rows, r.updated_at.isSome) :
    (syncContacts start rows).1 =
      rows.filter (fun r => r.updated_at.any (fun t => decide (start ≤ t))) ∧
    (syncContacts start rows).2 =
      (rows.filterMap (fun r => r.updated_at)).foldl max start := by
  constructor
  · rw [syncContacts, syncContacts_emitted_aux]
    rw [List.nil_append]
    apply List.filter_congr
    intro r hr
    rcases Option.isSome_iff_exists.mp (h r hr) with ⟨t, ht⟩
    simp [ht]
  · rw [syncContacts, syncContacts_max_aux]

theorem sync_contacts_incremental_witness :
    (syncContacts 10 c1Rows).1 = [⟨1, some 10⟩, ⟨2, some 15⟩, ⟨3, some 12⟩] ∧
    (syncContacts 10 c1Rows).2 = 15 := by
  have h := sync_contacts_incremental 10 c1Rows (by decide)
  exact ⟨h.1.trans (by decide), h.2.trans (by decide)⟩

/-- Claim C7: after any successful contacts sync, the persisted
`updated_at` bookmark is at least the value the sync started from (the
prior bookmark, or the configured start date when none existed):
bookmarks are monotonically non-decreasing across successful syncs. -/
theorem sync_contacts_bookmark_monotone (state : TapState) (startDate : Int)
    (rows : List ContactRec) :
    ∃ b, (syncContactsState state startDate rows).contactsUpdatedAt = some b ∧
      getStart state startDate ≤ b := by
  refine ⟨(syncContacts (getStart state startDate) rows).2, rfl, ?_⟩
  rw [syncContacts, syncContacts_max_aux]
  exact le_foldl_max _ _

/-- Claim C8: a record lacking `updated_at` is always emitted, and it
leaves `max_updated_at` (hence the persisted bookmark) unchanged. -/
theorem sync_contacts_missing_updated_at (start : Int) (pre post : List ContactRec)
    (r : ContactRec) (h : r.updated_at = none) :
    r ∈ (syncContacts start (pre ++ r :: post)).1 ∧
    (syncContacts start (pre ++ r :: post)).2 = (syncContacts start (pre ++ post)).2 := by
  constructor
  · rw [syncContacts, syncContacts_emitted_aux, List.nil_append, List.mem_filter]
    exact ⟨by simp, by simp [h]⟩
  · rw [syncContacts, syncContacts_max_aux, syncContacts, syncContacts_max_aux]
    rw [List.filterMap_append, List.filterMap_append, List.filterMap_cons, h]

theorem sync_contacts_missing_updated_at_witness :
    (⟨1, none⟩ : ContactRec) ∈ (syncContacts 100 ([⟨0, some 1⟩] ++ ⟨1, none⟩ :: [⟨2, some 3⟩])).1 ∧
    (syncContacts 100 ([⟨0, some 1⟩] ++ ⟨1, none⟩ :: [⟨2, some 3⟩])).2 =
      (syncContacts 100 ([⟨0, some 1⟩] ++ [⟨2, some 3⟩])).2 :=
  sync_contacts_missing_updated_at 100 [⟨0, some 1⟩] [⟨2, some 3⟩] ⟨1, none⟩ rfl

/-- Claim C10: syncing any non-contacts stream returns the state exactly
as it was passed in — only the contacts routine modifies bookmark state. -/
theorem sync_non_contacts_frame (state : TapState) (startDate : Int)
    (streamId : String) (rows : List ContactRec)
    (h : streamId ∈ ["lists", "smart_segments", "smart_segments_contacts"]) :
    sync state startDate streamId rows = state := by
  simp only [List.mem_cons, List.not_mem_nil, or_false] at h
  rcases h with rfl | rfl | rfl <;> rfl

theorem sync_non_contacts_frame_witness :
    sync ⟨some 5, none⟩ 0 "lists" [] = ⟨some 5, none⟩ :=
  sync_non_contacts_frame ⟨some 5, none⟩ 0 "lists" [] (by simp)

/-! ## Lemmas: the pagination loop -/

theorem genRequestRun_step_short {α : Type} (isContact : Bool)
    (fetch : Nat → Option String → Page α) (fuel i : Nat) (params : Option String)
    (h : (fetch i params).records.length < PER_PAGE) :
    genRequestRun isContact fetch (fuel+1) i params =
      ⟨[params], (fetch i params).records, true⟩ := by
  simp only [genRequestRun]
  rw [if_pos h]

theorem genRequestRun_step_full {α : Type} (isContact : Bool)
    (fetch : Nat → Option String → Page α) (fuel i : Nat) (params : Option String)
    (h : ¬ (fetch i params).records.length < PER_PAGE) :
    genRequestRun isContact fetch (fuel+1) i params =
      ⟨params :: (genRequestRun isContact fetch fuel (i+1)
          (if isContact then (fetch i params).bookmark else params)).fetchParams,
       (fetch i params).records ++ (genRequestRun isContact fetch fuel (i+1)
          (if isContact then (fetch i params).bookmark else params)).yielded,
       (genRequestRun isContact fetch fuel (i+1)
          (if isContact then (fetch i params).bookmark else params)).finished⟩ := by
  simp only [genRequestRun]
  rw [if_neg h]

theorem genRequestRun_pages {α : Type} (isContact : Bool)
    (fetch : Nat → Option String → Page α) (recsOf : Nat → List α)
    (hrec : ∀ i p, (fetch i p).records = recsOf i) :
    ∀ (n i fuel : Nat) (params : Option String),
      (∀ j, j < n → (recsOf (i + j)).length = PER_PAGE) →
      (recsOf (i + n)).length < PER_PAGE →
      n + 1 ≤ fuel →
      (genRequestRun isContact fetch fuel i params).yielded = pagesConcat recsOf i n ∧
      (genRequestRun isContact fetch fuel i params).finished = true ∧
      (genRequestRun isContact fetch fuel i params).fetchParams.length = n + 1 := by
  intro n
  induction n with
  | zero =>
    intro i fuel params _ hshort hfuel
    match fuel, hfuel with
    | f+1, _ =>
      have hlt : (fetch i params).records.length < PER_PAGE := by
        rw [hrec]; simpa using hshort
      rw [genRequestRun_step_short isContact fetch f i params hlt]
      exact ⟨by rw [hrec]; rfl, rfl, rfl⟩
  | succ n ih =>
    intro i fuel params hfull hshort hfuel
    match fuel, hfuel with
    | f+1, hfuel =>
      have hlen : (fetch i params).records.length = PER_PAGE := by
        rw [hrec]; simpa using hfull 0 (Nat.succ_pos n)
      have hnlt : ¬ (fetch i params).records.length < PER_PAGE := by omega
      have ihres := ih (i+1) f (if isContact then (fetch i params).bookmark else params)
        (fun j hj => by
          have h1 : i + 1 + j = i + (j + 1) := by omega
          rw [h1]
          exact hfull (j+1) (by omega))
        (by
          have h1 : i + 1 + n = i + (n + 1) := by omega
          rw [h1]
          exact hshort)
        (by omega)
      rw [genRequestRun_step_full isContact fetch f i params hnlt]
      refine ⟨?_, ihres.2.1, ?_⟩
      · show (fetch i params).records ++ _ = pagesConcat recsOf i (n+1)
        rw [hrec, ihres.1]
        rfl
      · show (_ :: _ : List (Option String)).length = n + 1 + 1
        rw [List.length_cons, ihres.2.2]

theorem genRequestRun_fetchParams_head {α : Type} (isContact : Bool)
    (fetch : Nat → Option String → Page α) (fuel i : Nat) (params q : Option String)
    (h : ((genRequestRun isContact fetch fuel i params).fetchParams)[0]? = some q) :
    q = params := by
  cases fuel with
  | zero => simp [genRequestRun] at h
  | succ f =>
    by_cases hlt : (fetch i params).records.length < PER_PAGE
    · rw [genRequestRun_step_short isContact fetch f i params hlt] at h
      simp at h
      exact h.symm
    · rw [genRequestRun_step_full isContact fetch f i params hlt] at h
      simp at h
      exact h.symm

theorem genRequestRun_contact_params_aux {α : Type}
    (fetch : Nat → Option String → Page α) :
    ∀ (fuel i k : Nat) (params p q : Option String),
      ((genRequestRun true fetch fuel i params).fetchParams)[k]? = some p →
      ((genRequestRun true fetch fuel i params).fetchParams)[k+1]? = some q →
      q = (fetch (i + k) p).bookmark := by
  intro fuel
  induction fuel with
  | zero => intro i k params p q hp _; simp [genRequestRun] at hp
  | succ f ih =>
    intro i k params p q hp hq
    by_cases hlt : (fetch i params).records.length < PER_PAGE
    · rw [genRequestRun_step_short true fetch f i params hlt] at hq
      have hnone : (([params] : List (Option String)))[k+1]? = none := by
        rw [List.getElem?_eq_none]
        simp
      simp only [hnone] at hq
      exact absurd hq (by simp)
    · rw [genRequestRun_step_full true fetch f i params hlt] at hp hq
      simp only [if_pos trivial, if_true] at hp hq
      cases k with
      | zero =>
        rw [List.getElem?_cons_zero] at hp
        rw [List.getElem?_cons_succ] at hq
        have hp' : params = p := by simpa using hp
        subst hp'
        have hhead := genRequestRun_fetchParams_head true fetch f (i+1)
          (fetch i params).bookmark q (by simpa using hq)
        simpa using hhead
      | succ k =>
        rw [List.getElem?_cons_succ] at hp hq
        have := ih (i+1) k ((fetch i params).bookmark) p q hp hq
        have h1 : i + 1 + k = i + (k + 1) := by omega
        rw [h1] at this
        exact this

theorem genRequestRun_fullFetch_never_finishes :
    ∀ (fuel i : Nat) (params : Option String),
      (genRequestRun true fullFetch fuel i params).finished = false := by
  intro fuel
  induction fuel with
  | zero => intro i params; rfl
  | succ f ih =>
    intro i params
    have hnlt : ¬ (fullFetch i params).records.length < PER_PAGE := by
      simp [fullFetch]
    rw [genRequestRun_step_full true fullFetch f i params hnlt]
    exact ih (i+1) _

/-! ## Claims about the Pagination Engine -/

/-- Claim C2: when every page has exactly `PER_PAGE = 100` records except
the last, which has fewer, the pagination loop yields exactly the
concatenation of all the pages' records and stops right after the short
page (making exactly `n + 1` fetches), regardless of any continuation
token the short page may carry. `recsOf i` is the record array served at
the `i`-th fetch (the hypothesis makes it independent of the params). -/
theorem gen_request_pagination {α : Type} (isContact : Bool)
    (fetch : Nat → Option String → Page α) (recsOf : Nat → List α) (n fuel : Nat)
    (params : Option String)
    (hrec : ∀ i p, (fetch i p).records = recsOf i)
    (hfull : ∀ j, j < n → (recsOf j).length = PER_PAGE)
    (hshort : (recsOf n).length < PER_PAGE)
    (hfuel : n + 1 ≤ fuel) :
    (genRequestRun isContact fetch fuel 0 params).yielded = pagesConcat recsOf 0 n ∧
    (genRequestRun isContact fetch fuel 0 params).finished = true ∧
    (genRequestRun isContact fetch fuel 0 params).fetchParams.length = n + 1 :=
  genRequestRun_pages isContact fetch recsOf hrec n 0 fuel params
    (fun j hj => by simpa using hfull j hj) (by simpa using hshort) hfuel

theorem gen_request_pagination_witness :
    (genRequestRun true c2Fetch 2 0 none).yielded = pagesConcat c2Recs 0 1 ∧
    (genRequestRun true c2Fetch 2 0 none).finished = true ∧
    (genRequestRun true c2Fetch 2 0 none).fetchParams.length = 2 :=
  gen_request_pagination true c2Fetch c2Recs 1 2 none (fun i p => rfl)
    (by decide) (by decide) (by omega)

/-- Claim C3: for a contacts-like source, whenever fetch `k+1` happens,
the params it is given equal the `bookmark` field of the page fetch `k`
returned: a present continuation token is passed on as the bookmark
parameter, and an absent one clears the params (`none`) even when the
page was full. -/
theorem gen_request_contact_bookmark {α : Type}
    (fetch : Nat → Option String → Page α) (fuel k : Nat) (init p q : Option String)
    (hp : ((genRequestRun true fetch fuel 0 init).fetchParams)[k]? = some p)
    (hq : ((genRequestRun true fetch fuel 0 init).fetchParams)[k+1]? = some q) :
    q = (fetch k p).bookmark := by
  have h := genRequestRun_contact_params_aux fetch fuel 0 k init p q hp hq
  simpa using h

theorem gen_request_contact_bookmark_witness :
    (genRequestRun true c3Fetch 2 0 none).fetchParams = [none, some "b1"] ∧
    some "b1" = (c3Fetch 0 none).bookmark :=
  ⟨by decide, gen_request_contact_bookmark c3Fetch 2 0 none none (some "b1")
    (by decide) (by decide)⟩

/-- Claim C4 counterexample: against a fetcher that serves a full
100-record page on every fetch, the pagination loop never reaches its
`break` at any fuel bound — `gen_request` does not terminate for every
possible page sequence. (In the source this is the `while True` loop of
`gen_request`, whose only exit is a page with fewer than 100 records.) -/
theorem gen_request_nontermination_counterexample :
    ¬ GenTerminates true fullFetch none := by
  rintro ⟨fuel, hf⟩
  rw [genRequestRun_fullFetch_never_finishes fuel 0 none] at hf
  exact Bool.false_ne_true hf

/-- Claim C4 (amended): the pagination loop terminates provided the
fetcher eventually serves a short page: if at some fetch index `n` every
possible page has fewer than `PER_PAGE` records, the loop reaches its
`break` within `n + 1` iterations. (As stated — for every page sequence —
the claim fails: see the counterexample with a fetcher serving full
pages forever.) -/
theorem gen_request_termination_amended {α : Type} (isContact : Bool)
    (fetch : Nat → Option String → Page α) (n : Nat) (init : Option String)
    (h : ∀ p, ((fetch n p).records).length < PER_PAGE) :
    ∀ fuel, n + 1 ≤ fuel → (genRequestRun isContact fetch fuel 0 init).finished = true := by
  suffices haux : ∀ (m i fuel : Nat) (params : Option String),
      (∀ p, ((fetch (i + m) p).records).length < PER_PAGE) → m + 1 ≤ fuel →
      (genRequestRun isContact fetch fuel i params).finished = true by
    intro fuel hf
    exact haux n 0 fuel init (by simpa using h) hf
  intro m
  induction m with
  | zero =>
    intro i fuel params hssh hfuel
    match fuel, hfuel with
    | f+1, _ =>
      have hlt : (fetch i params).records.length < PER_PAGE := by
        simpa using hssh params
      rw [genRequestRun_step_short isContact fetch f i params hlt]
  | succ m ih =>
    intro i fuel params hssh hfuel
    match fuel, hfuel with
    | f+1, hfuel =>
      by_cases hlt : (fetch i params).records.length < PER_PAGE
      · rw [genRequestRun_step_short isContact fetch f i params hlt]
      · rw [genRequestRun_step_full isContact fetch f i params hlt]
        exact ih (i+1) f _ (fun p => by
          have h1 : i + 1 + m = i + (m + 1) := by omega
          rw [h1]
          exact hssh p) (by omega)

theorem gen_request_termination_amended_witness :
    (genRequestRun true shortFetch 1 0 none).finished = true :=
  gen_request_termination_amended true shortFetch 0 none
    (fun p => by simp [shortFetch, PER_PAGE]) 1 (by omega)

/-! ## Lemmas: the stream dispatcher -/

theorem dropWhile_not_id_structure (s : String) :
    ∀ (streams : List CatStream),
      (∃ st ∈ streams, st.tap_stream_id = s) →
      ∃ pre hd tl,
        streams = pre ++ hd :: tl ∧
        (∀ st ∈ pre, st.tap_stream_id ≠ s) ∧
        hd.tap_stream_id = s ∧
        streams.dropWhile (fun x => !(x.tap_stream_id == s)) = hd :: tl := by
  intro streams
  induction streams with
  | nil => rintro ⟨st, hmem, _⟩; cases hmem
  | cons a rest ih =>
    rintro ⟨st, hmem, hid⟩
    by_cases ha : a.tap_stream_id = s
    · exact ⟨[], a, rest, rfl, by simp, ha, by simp [List.dropWhile_cons, ha]⟩
    · have hst : ∃ st ∈ rest, st.tap_stream_id = s := by
        rcases List.mem_cons.mp hmem with rfl | hmemr
        · exact absurd hid ha
        · exact ⟨st, hmemr, hid⟩
      rcases ih hst with ⟨pre, hd, tl, heq, hpre, hhd, hdrop⟩
      refine ⟨a :: pre, hd, tl, by rw [heq]; rfl, ?_, hhd, ?_⟩
      · intro st hstm
        rcases List.mem_cons.mp hstm with rfl | hstmr
        · exact ha
        · exact hpre st hstmr
      · rw [List.dropWhile_cons]
        simp [ha, hdrop]

theorem dropWhile_not_id_nil (s : String) :
    ∀ (streams : List CatStream),
      (∀ st ∈ streams, st.tap_stream_id ≠ s) →
      streams.dropWhile (fun x => !(x.tap_stream_id == s)) = [] := by
  intro streams
  induction streams with
  | nil => intro _; rfl
  | cons a rest ih =>
    intro h
    rw [List.dropWhile_cons]
    have ha : a.tap_stream_id ≠ s := h a (List.mem_cons_self a rest)
    have hcond : (!(a.tap_stream_id == s)) = true := by simp [ha]
    rw [if_pos hcond]
    exact ih (fun st hst => h st (List.mem_cons_of_mem a hst))

/-! ## Claim about the Stream Dispatcher -/

/-- Claim C5 counterexample: for the empty catalog with no currently
syncing stream named, the claim says the dispatcher starts from the
beginning (processing the empty catalog), but `get_streams_to_sync`
raises the unknown-stream error instead (`result` is empty, so the
`if not result` guard fires even though no stream was named). -/
theorem get_streams_to_sync_counterexample :
    getStreamsToSync [] none = Except.error "Unknown stream None in state" := rfl

/-- Claim C5 (amended): provided the catalog is non-empty in the
no-stream-named case and the named stream identifier is a non-empty
string (Python truthiness treats an empty name as no name): when no
stream is named the dispatcher processes the whole catalog from the
beginning; when the named stream is present it processes exactly the
suffix of the catalog starting at that stream (every stream before it in
catalog order is dropped); when the named stream is absent — and also
for an empty catalog with no stream named, see the counterexample — it
fails with the unknown-stream error before syncing anything. -/
theorem get_streams_to_sync_spec (streams : List CatStream) :
    (streams ≠ [] → getStreamsToSync streams none = Except.ok streams) ∧
    (∀ s : String, s ≠ "" → (∃ st ∈ streams, st.tap_stream_id = s) →
      getStreamsToSync streams (some s) =
        Except.ok (streams.dropWhile (fun x => !(x.tap_stream_id == s))) ∧
      ∃ pre hd tl,
        streams = pre ++ hd :: tl ∧
        (∀ st ∈ pre, st.tap_stream_id ≠ s) ∧
        hd.tap_stream_id = s ∧
        streams.dropWhile (fun x => !(x.tap_stream_id == s)) = hd :: tl) ∧
    (∀ s : String, s ≠ "" → (∀ st ∈ streams, st.tap_stream_id ≠ s) →
      getStreamsToSync streams (some s) =
        Except.error ("Unknown stream " ++ s ++ " in state")) := by
  refine ⟨?_, ?_, ?_⟩
  · intro hne
    simp [getStreamsToSync, hne]
  · intro s hs hmem
    rcases dropWhile_not_id_structure s streams hmem with ⟨pre, hd, tl, heq, hpre, hhd, hdrop⟩
    constructor
    · simp [getStreamsToSync, hs, hdrop]
    · exact ⟨pre, hd, tl, heq, hpre, hhd, hdrop⟩
  · intro s hs habs
    have hdrop := dropWhile_not_id_nil s streams habs
    simp [getStreamsToSync, hs, hdrop, csRepr]

theorem get_streams_to_sync_spec_witness :
    getStreamsToSync c5Catalog none = Except.ok c5Catalog ∧
    getStreamsToSync c5Catalog (some "lists") =
      Except.ok [⟨"lists"⟩, ⟨"smart_segments"⟩, ⟨"smart_segments_contacts"⟩] ∧
    getStreamsToSync c5Catalog (some "nope") =
      Except.error "Unknown stream nope in state" := by
  refine ⟨?_, ?_, ?_⟩
  · exact (get_streams_to_sync_spec c5Catalog).1 (by simp [c5Catalog])
  · exact ((get_streams_to_sync_spec c5Catalog).2.1 "lists" (by decide)
      ⟨⟨"lists"⟩, by decide, rfl⟩).1
  · exact (get_streams_to_sync_spec c5Catalog).2.2 "nope" (by decide) (by decide)

/-! ## Lemmas: the retry wrapper -/

theorem backoffRun_step_ok {α : Type} (attempt : Nat → Except (Option Nat) α)
    (i t : Nat) (a : α) (h : attempt i = Except.ok a) :
    backoffRun attempt i (t+1) = (Except.ok a, 1, []) := by
  simp only [backoffRun, h]

theorem backoffRun_step_giveup {α : Type} (attempt : Nat → Except (Option Nat) α)
    (i t : Nat) (e : Option Nat) (h : attempt i = Except.error e)
    (hc : (clientError e || t == 0) = true) :
    backoffRun attempt i (t+1) = (Except.error e, 1, []) := by
  simp only [backoffRun, h]
  rw [if_pos hc]

theorem backoffRun_step_retry {α : Type} (attempt : Nat → Except (Option Nat) α)
    (i t : Nat) (e : Option Nat) (h : attempt i = Except.error e)
    (hc : (clientError e || t == 0) = false) :
    backoffRun attempt i (t+1) =
      ((backoffRun attempt (i+1) t).1, (backoffRun attempt (i+1) t).2.1 + 1,
        2 * 2 ^ i :: (backoffRun attempt (i+1) t).2.2) := by
  simp only [backoffRun, h]
  rw [if_neg (by simp [hc])]

theorem backoffRun_tries_le {α : Type} (attempt : Nat → Except (Option Nat) α) :
    ∀ (t i : Nat), (backoffRun attempt i t).2.1 ≤ t := by
  intro t
  induction t with
  | zero => intro i; simp [backoffRun]
  | succ t ih =>
    intro i
    cases h : attempt i with
    | ok a =>
      rw [backoffRun_step_ok attempt i t a h]
      show 1 ≤ t + 1
      omega
    | error e =>
      cases hc : (clientError e || t == 0) with
      | true =>
        rw [backoffRun_step_giveup attempt i t e h hc]
        show 1 ≤ t + 1
        omega
      | false =>
        rw [backoffRun_step_retry attempt i t e h hc]
        show (backoffRun attempt (i+1) t).2.1 + 1 ≤ t + 1
        have := ih (i+1)
        omega

theorem backoffRun_tries_pos {α : Type} (attempt : Nat → Except (Option Nat) α)
    (t i : Nat) (ht : 1 ≤ t) : 1 ≤ (backoffRun attempt i t).2.1 := by
  match t, ht with
  | t+1, _ =>
    cases h : attempt i with
    | ok a => rw [backoffRun_step_ok attempt i t a h]
    | error e =>
      cases hc : (clientError e || t == 0) with
      | true => rw [backoffRun_step_giveup attempt i t e h hc]
      | false =>
        rw [backoffRun_step_retry attempt i t e h hc]
        show 1 ≤ (backoffRun attempt (i+1) t).2.1 + 1
        omega

theorem backoffRun_delays {α : Type} (attempt : Nat → Except (Option Nat) α) :
    ∀ (t i : Nat),
      (backoffRun attempt i t).2.2 =
        (List.range ((backoffRun attempt i t).2.1 - 1)).map (fun n => 2 * 2 ^ (i + n)) := by
  intro t
  induction t with
  | zero => intro i; simp [backoffRun]
  | succ t ih =>
    intro i
    cases h : attempt i with
    | ok a => rw [backoffRun_step_ok attempt i t a h]; simp
    | error e =>
      cases hc : (clientError e || t == 0) with
      | true => rw [backoffRun_step_giveup attempt i t e h hc]; simp
      | false =>
        have ht : t ≠ 0 := by
          intro h0
          subst h0
          simp at hc
        have hpos : 1 ≤ (backoffRun attempt (i+1) t).2.1 :=
          backoffRun_tries_pos attempt t (i+1) (by omega)
        rw [backoffRun_step_retry attempt i t e h hc]
        show 2 * 2 ^ i :: (backoffRun attempt (i+1) t).2.2 =
          (List.range ((backoffRun attempt (i+1) t).2.1 + 1 - 1)).map (fun n => 2 * 2 ^ (i + n))
        rw [ih (i+1)]
        obtain ⟨m, hm⟩ : ∃ m, (backoffRun attempt (i+1) t).2.1 = m + 1 :=
          ⟨(backoffRun attempt (i+1) t).2.1 - 1, by omega⟩
        rw [hm]
        simp only [Nat.add_sub_cancel]
        rw [List.range_succ_eq_map, List.map_cons, List.map_map]
        refine congrArg₂ List.cons (by rw [Nat.add_zero]) ?_
        apply List.map_congr_left
        intro a _
        simp only [Function.comp_apply]
        congr 2
        omega

/-! ## Claim about the HTTP Fetcher retry -/

/-- Claim C6: a failed request is retried, with the exponential backoff
values `2 * 2 ^ n` between tries, exactly when the failure is not a
client error, and in total at most 5 tries are made; a client error —
a response status in `[400, 500)` other than 408 — propagates after a
single try, with no retry. -/
theorem request_retry_spec {α : Type} :
    (∀ code : Nat, clientError (some code) = true ↔ (400 ≤ code ∧ code < 500 ∧ code ≠ 408)) ∧
    (∀ (attempt : Nat → Except (Option Nat) α) (e : Option Nat),
      attempt 0 = Except.error e → clientError e = true →
      request attempt = (Except.error e, 1, [])) ∧
    (∀ attempt : Nat → Except (Option Nat) α, (request attempt).2.1 ≤ 5) ∧
    (∀ (attempt : Nat → Except (Option Nat) α) (e : Option Nat),
      attempt 0 = Except.error e → clientError e = false →
      2 ≤ (request attempt).2.1) ∧
    (∀ attempt : Nat → Except (Option Nat) α,
      (request attempt).2.2 =
        (List.range ((request attempt).2.1 - 1)).map (fun n => 2 * 2 ^ n)) := by
  refine ⟨?_, ?_, ?_, ?_, ?_⟩
  · intro code
    simp only [clientError, Bool.and_eq_true, decide_eq_true_eq]
    constructor
    · rintro ⟨h1, h2, h3⟩; exact ⟨h2, h3, h1⟩
    · rintro ⟨h1, h2, h3⟩; exact ⟨h3, h1, h2⟩
  · intro attempt e h0 hc
    rw [request, backoffRun_step_giveup attempt 0 4 e h0 (by simp [hc])]
  · intro attempt
    exact backoffRun_tries_le attempt 5 0
  · intro attempt e h0 hc
    have hpos : 1 ≤ (backoffRun attempt 1 4).2.1 :=
      backoffRun_tries_pos attempt 4 1 (by omega)
    rw [request, backoffRun_step_retry attempt 0 4 e h0 (by simp [hc])]
    show 2 ≤ (backoffRun attempt 1 4).2.1 + 1
    omega
  · intro attempt
    have h := backoffRun_delays attempt 5 0
    simpa using h

theorem request_retry_spec_witness :
    request c6Attempt = (Except.error (some 404), 1, []) :=
  (@request_retry_spec Unit).2.1 c6Attempt (some 404) rfl (by decide)

/-! ## Lemmas: the contact transform -/

theorem lookupKey_updateKey_self (c : Contact) (k : String) (f : JVal → JVal) :
    lookupKey (updateKey c k f) k = (lookupKey c k).map f := by
  induction c with
  | nil => rfl
  | cons p rest ih =>
    cases hk : (p.1 == k) with
    | true =>
      simp only [updateKey, List.map_cons, hk, if_pos]
      simp only [lookupKey, List.find?_cons, hk]
      rfl
    | false =>
      simp only [updateKey, List.map_cons, hk]
      rw [if_neg (by simp [hk])]
      simp only [lookupKey, List.find?_cons, hk]
      exact ih

theorem lookupKey_updateKey_ne (c : Contact) (k q : String) (f : JVal → JVal)
    (h : q ≠ k) :
    lookupKey (updateKey c k f) q = lookupKey c q := by
  induction c with
  | nil => rfl
  | cons p rest ih =>
    cases hk : (p.1 == k) with
    | true =>
      have hq : (p.1 == q) = false := by
        have hpk : p.1 = k := by simpa using hk
        rw [hpk]
        simp [Ne.symm h]
      simp only [updateKey, List.map_cons, hk, if_pos]
      simp only [lookupKey, List.find?_cons, hq]
      exact ih
    | false =>
      simp only [updateKey, List.map_cons, hk]
      rw [if_neg (by simp [hk])]
      simp only [lookupKey, List.find?_cons]
      cases hq : (p.1 == q) with
      | true => rfl
      | false => exact ih

theorem hasKey_eq_isSome (c : Contact) (k : String) :
    hasKey c k = (lookupKey c k).isSome := by
  induction c with
  | nil => rfl
  | cons p rest ih =>
    cases hk : (p.1 == k) with
    | true => simp [hasKey, lookupKey, List.find?_cons, hk]
    | false =>
      simp only [hasKey, List.any_cons, hk, Bool.false_or]
      simp only [lookupKey, List.find?_cons, hk]
      exact ih

theorem lookupKey_applyProps_not_mem (fmt : JVal → JVal) (k : String) :
    ∀ (props : List String), k ∉ props → ∀ c : Contact,
      lookupKey (applyProps props fmt c) k = lookupKey c k := by
  intro props
  induction props with
  | nil => intro _ c; rfl
  | cons p ps ih =>
    intro h c
    have hk : k ≠ p := fun he => h (he ▸ List.mem_cons_self p ps)
    show lookupKey (applyProps ps fmt (if hasKey c p then updateKey c p fmt else c)) k = _
    rw [ih (fun hm => h (List.mem_cons_of_mem p hm))]
    by_cases hc : hasKey c p
    · rw [if_pos hc, lookupKey_updateKey_ne c p k fmt hk]
    · rw [if_neg hc]

theorem lookupKey_applyProps_mem (fmt : JVal → JVal) (k : String) :
    ∀ (props : List String), props.Nodup → k ∈ props → ∀ c : Contact,
      lookupKey (applyProps props fmt c) k = (lookupKey c k).map fmt := by
  intro props
  induction props with
  | nil => intro _ hmem; cases hmem
  | cons p ps ih =>
    intro hnd hmem c
    rcases List.mem_cons.mp hmem with rfl | hmem'
    · have hknotin : k ∉ ps := (List.nodup_cons.mp hnd).1
      show lookupKey (applyProps ps fmt (if hasKey c k then updateKey c k fmt else c)) k = _
      rw [lookupKey_applyProps_not_mem fmt k ps hknotin]
      by_cases hc : hasKey c k
      · rw [if_pos hc, lookupKey_updateKey_self]
      · rw [if_neg hc]
        have hnone : lookupKey c k = none := by
          cases hl : lookupKey c k with
          | none => rfl
          | some v =>
            rw [hasKey_eq_isSome, hl] at hc
            simp at hc
        rw [hnone]
        rfl
    · have hnd' := (List.nodup_cons.mp hnd).2
      have hkp : k ≠ p := fun he => (List.nodup_cons.mp hnd).1 (he ▸ hmem')
      show lookupKey (applyProps ps fmt (if hasKey c p then updateKey c p fmt else c)) k = _
      rw [ih hnd' hmem' _]
      by_cases hc : hasKey c p
      · rw [if_pos hc, lookupKey_updateKey_ne c p k fmt hkp]
      · rw [if_neg hc]

/-! ## Claim about the contact transform -/

/-- Claim C9: `transform_contact` turns each present boolean-prop
sub-object into the array of its `url`/`value` pair objects (one per
key), each present timestamp-prop sub-object into the array of its
`id`/`timestamp` pair objects with the value run through the
Unix-milliseconds parser, and leaves every property outside the two
fixed lists unchanged. -/
theorem transform_contact_spec (parseMs : JVal → JVal) (c : Contact) (prop : String) :
    (∀ rows, prop ∈ boolean_props → lookupKey c prop = some (JVal.obj rows) →
      lookupKey (transform_contact parseMs c) prop =
        some (JVal.arr (rows.map (fun r =>
          JVal.obj [("url", JVal.str r.1), ("value", r.2)])))) ∧
    (∀ rows, prop ∈ timestamp_props → lookupKey c prop = some (JVal.obj rows) →
      lookupKey (transform_contact parseMs c) prop =
        some (JVal.arr (rows.map (fun r =>
          JVal.obj [("id", JVal.str r.1), ("timestamp", parseMs r.2)])))) ∧
    (prop ∉ boolean_props → prop ∉ timestamp_props →
      lookupKey (transform_contact parseMs c) prop = lookupKey c prop) := by
  refine ⟨?_, ?_, ?_⟩
  · intro rows hmem hlook
    have hnotts : prop ∉ timestamp_props := by
      fin_cases hmem <;> decide
    rw [transform_contact,
      lookupKey_applyProps_not_mem (tsFormat parseMs) prop timestamp_props hnotts,
      lookupKey_applyProps_mem boolFormat prop boolean_props (by decide) hmem c, hlook]
    rfl
  · intro rows hmem hlook
    have hnotb : prop ∉ boolean_props := by
      fin_cases hmem <;> decide
    rw [transform_contact,
      lookupKey_applyProps_mem (tsFormat parseMs) prop timestamp_props (by decide) hmem _,
      lookupKey_applyProps_not_mem boolFormat prop boolean_props hnotb, hlook]
    rfl
  · intro h1 h2
    rw [transform_contact,
      lookupKey_applyProps_not_mem (tsFormat parseMs) prop timestamp_props h2,
      lookupKey_applyProps_not_mem boolFormat prop boolean_props h1]

theorem transform_contact_spec_witness :
    lookupKey (transform_contact (fun v => v) c9Contact) "anywhere_page_visits" =
      some (JVal.arr [JVal.obj [("url", JVal.str "http://x.com"),
        ("value", JVal.bool true)]]) :=
  (transform_contact_spec (fun v => v) c9Contact "anywhere_page_visits").1
    [("http://x.com", JVal.bool true)] (by decide) rfl

end TapAutopilot
